import Mathlib

/-!
# Verification of the boxnote-to-docx converter against its specification

This development gives a shallow embedding, in Lean, of the parts of the
`boxtodocx` Python code base that the specification talks about:

* `mappers/html_mapper.py` — the BoxNote-JSON → HTML mapper
  (`get_safe_color`, `get_tag_open`, `get_tag_close`, `handle_text_marks`,
  `handle_image`, `sanitize_filename`);
* `handlers/html_handler.py` — the BoxNote parser (`try_parse_json`
  fallback path and the tail of `BoxNoteParser.parse`);
* `handlers/docx_handler.py` — the HTML → DOCX reconstructor
  (`HtmlToDocx.handle_starttag` / `handle_endtag` / `handle_data`,
  `parse_style_string`, `apply_paragraph_style`, `handle_list_item`,
  `process_table`).

Python strings are modelled as Lean `String` / `List Char`; Python floats
are modelled as `ℚ` (the concrete computations proved here are exact in
IEEE double as well); Python exceptions are modelled with `Except Unit`;
side-effecting resolution steps (HTTP downloads, file-system globbing)
are modelled as oracle parameters.  Regular-expression semantics follow
Python's `re` for the concrete patterns appearing in the source,
restricted to ASCII character classes (`\d`, `\s`, `str.strip`,
`str.lower` are modelled on the ASCII range; the inputs the theorems
quantify over make this faithful).
-/

set_option maxRecDepth 100000

namespace BoxToDocx

/-- ASCII part of Python's `\s` / `str.isspace` character class:
space, tab, newline, carriage return, vertical tab, form feed. -/
def isPyWs (c : Char) : Bool :=
  c = ' ' || c = '\t' || c = '\n' || c = '\r' || c = '\x0b' || c = '\x0c'

/-- Python `str.strip()` (ASCII whitespace), on character lists. -/
def pyStrip (l : List Char) : List Char :=
  ((l.dropWhile isPyWs).reverse.dropWhile isPyWs).reverse

/-- `[0-9]`, the ASCII part of the regex class `\d`. -/
def isAsciiDigit (c : Char) : Bool :=
  '0' ≤ c && c ≤ '9'

/-- The regex class `[0-9A-Fa-f]`. -/
def isHexChar (c : Char) : Bool :=
  isAsciiDigit c || ('A' ≤ c && c ≤ 'F') || ('a' ≤ c && c ≤ 'f')

/-- Python's end-of-pattern anchor `$`: it matches at the end of the
string, or just before a newline that is the last character. -/
def pyDollar (rest : List Char) : Bool :=
  rest = [] || rest = ['\n']

/-- Consume one expected character. -/
def pChar (c : Char) : List Char → Option (List Char)
  | x :: r => if x = c then some r else none
  | [] => none

/-- Consume an expected literal string. -/
def pLit : List Char → List Char → Option (List Char)
  | [], l => some l
  | p :: ps, x :: xs => if x = p then pLit ps xs else none
  | _ :: _, [] => none

/-- Consume `\d{1,3}` followed by a non-digit (or the end): the greedy
digit run must have length 1–3; a longer run makes every backtracking
attempt fail because in the patterns below the character after the
count is never a digit, so matching the maximal run is equivalent. -/
def pDigits13 (l : List Char) : Option (List Char) :=
  let d := l.takeWhile isAsciiDigit
  if 1 ≤ d.length ∧ d.length ≤ 3 then some (l.dropWhile isAsciiDigit) else none

/-- `re.match(r'^#[0-9A-Fa-f]{6}$', s)`, as a Boolean on character
lists.  `re.match` anchors at the start; `{6}` is an exact count. -/
def matchHexColor (l : List Char) : Bool :=
  match pChar '#' l with
  | some rest =>
    (rest.take 6).length = 6 && (rest.take 6).all isHexChar && pyDollar (rest.drop 6)
  | none => false

/-- `re.match(r'^rgb\(\d{1,3},\s*\d{1,3},\s*\d{1,3}\)$', s)` as a
Boolean on character lists (`\s*` is the greedy whitespace run, always
followed here by a digit, so `dropWhile` is equivalent). -/
def matchRgbColor (l : List Char) : Bool :=
  ((((((((pLit "rgb(".data l).bind
      pDigits13).bind
      (pChar ',')).bind
      (fun r => pDigits13 (r.dropWhile isPyWs))).bind
      (pChar ',')).bind
      (fun r => pDigits13 (r.dropWhile isPyWs))).bind
      (pChar ')')).map
      pyDollar).getD false

/-- `html_mapper.get_safe_color`: returns the input when it matches one
of the two colour regexes, `'inherit'` otherwise (also for `''`, which
is falsy in Python). -/
def get_safe_color (color : String) : String :=
  if color = "" then "inherit"
  else if matchHexColor color.data then color
  else if matchRgbColor color.data then color
  else "inherit"

/-- `html_mapper.get_tag_open`'s membership test `tag not in tag_open_map`:
the keys of `tag_open_map`, in source order. -/
def tagOpenKeys : List String :=
  ["paragraph", "strong", "em", "underline", "strikethrough", "ordered_list",
   "blockquote", "bullet_list", "list_item", "check_list", "check_list_item",
   "horizontal_rule", "table", "table_row", "table_cell", "table_header",
   "image", "highlight", "heading", "font_size", "font_color", "link",
   "code_block", "call_out_box"]

/-- Python `''.join(strings)`. -/
def pyJoin : List String → String
  | [] => ""
  | s :: ss => s ++ pyJoin ss

/-- Dictionary lookup (`kwargs.get(k)` / `attrs.get(k)`); BoxNote attr
dictionaries have distinct keys, so first match is dict lookup. -/
def alookup (attrs : List (String × String)) (k : String) : Option String :=
  (attrs.find? (fun p => p.1 = k)).map (fun p => p.2)

/-- Value of key `k` after `get_tag_open` merges `defaults` into the
missing entries of `kwargs`: the attribute if present, else `dflt`. -/
def attrD (attrs : List (String × String)) (k dflt : String) : String :=
  (alookup attrs k).getD dflt

/-- Character class of `sanitize_filename`'s regex `[<>:"/\\|?*]`. -/
def isBadFileChar (c : Char) : Bool :=
  c = '<' || c = '>' || c = ':' || c = '"' || c = '/' || c = '\\' || c = '|' ||
    c = '?' || c = '*'

/-- `html_mapper.sanitize_filename`: `re.sub(r'[<>:"/\\|?*]', '_', s)`. -/
def sanitize_filename (s : String) : String :=
  String.mk (s.data.map (fun c => if isBadFileChar c then '_' else c))

/-- `html_mapper.get_tag_open tag **kwargs`, per template of
`tag_open_map` with the `defaults` of the source merged in and the
`color`/`src` values sanitized.  A template placeholder whose key is
neither in `kwargs` nor in `defaults` raises `KeyError`; the source's
retry `tag_open_map[tag].format(**defaults)` re-raises `KeyError` for
exactly the same keys (the retry's key set is a subset of the merged
one), so a missing placeholder is modelled as `.error ()`.  The
`font_size` template is not modelled (its `get_safe_size` validation is
floating-point parsing and string formatting); it falls to the final
catch-all and is not used by any theorem below. -/
def getTagOpen (tag : String) (attrs : List (String × String)) : Except Unit String :=
  if ¬ tagOpenKeys.contains tag then .ok "" else
  let color := get_safe_color (attrD attrs "color" "inherit")
  match tag with
  | "paragraph" =>
    .ok ("<p style=\"text-align: " ++ attrD attrs "alignment" "left" ++
         "; margin-bottom: 1em; line-height: 1.6;\">")
  | "strong" => .ok "<strong>"
  | "em" => .ok "<em>"
  | "underline" => .ok "<u>"
  | "strikethrough" => .ok "<s>"
  | "ordered_list" => .ok "<ol style=\"margin: 1em 0; padding-left: 2em;\">"
  | "blockquote" => .ok "<blockquote>"
  | "bullet_list" => .ok "<ul style=\"margin: 1em 0; padding-left: 2em;\">"
  | "list_item" => .ok "<li style=\"margin: 0.5em 0;\">"
  | "check_list" => .ok "<ul class=\"check-list\">"
  | "check_list_item" =>
    match alookup attrs "checked", alookup attrs "x" with
    | some ck, some x =>
      .ok ("<li class=\"check-list-item\"><input type=\"checkbox\" " ++ ck ++
           " disabled><span>[" ++ x ++ "]</span>")
    | _, _ => .error ()
  | "horizontal_rule" =>
    .ok "<hr style=\"border: none; border-top: 1px solid #ddd; margin: 2em 0;\">"
  | "table" => .ok "<table>"
  | "table_row" => .ok "<tr>"
  | "table_cell" =>
    .ok ("<td colspan=\"" ++ attrD attrs "colspan" "1" ++ "\" rowspan=\"" ++
         attrD attrs "rowspan" "1" ++ "\" \n                     style=\"width: " ++
         attrD attrs "colwidth" "100" ++ "px; text-align: " ++
         attrD attrs "alignment" "left" ++ "; \n                     background-color: " ++
         attrD attrs "bgcolor" "inherit" ++ "; color: " ++ color ++ ";\">")
  | "table_header" =>
    .ok ("<th style=\"text-align: " ++ attrD attrs "alignment" "left" ++ ";\">")
  | "image" =>
    match alookup attrs "src" with
    | some src =>
      .ok ("<img src=\"" ++ sanitize_filename src ++ "\" alt=\"" ++
           attrD attrs "alt" "" ++ "\" title=\"" ++ attrD attrs "title" "" ++
           "\" \n               style=\"max-width: 100%; height: auto; display: block; margin: 1em auto;\">")
    | none => .error ()
  | "highlight" => .ok ("<span style=\"background-color: " ++ color ++ ";\">")
  | "heading" =>
    match alookup attrs "level" with
    | some lv => .ok ("<h" ++ lv ++ " style=\"color: " ++ color ++ ";\">")
    | none => .error ()
  | "font_color" => .ok ("<span style=\"color: " ++ color ++ ";\">")
  | "link" =>
    match alookup attrs "href" with
    | some href =>
      .ok ("<a href=\"" ++ href ++ "\" title=\"" ++ attrD attrs "title" "" ++
           "\" target=\"" ++ attrD attrs "target" "_blank" ++ "\">")
    | none => .error ()
  | "code_block" =>
    .ok ("<pre><code class=\"language-" ++ attrD attrs "language" "text" ++ "\">")
  | "call_out_box" =>
    match alookup attrs "backgroundColor", alookup attrs "emoji" with
    | some bg, some emoji =>
      .ok ("<div class=\"call-out-box\" style=\"background-color: " ++ bg ++
           "; \n                    border-left-color: " ++
           attrD attrs "borderColor" "#ddd" ++ ";\"><p>" ++ emoji)
    | _, _ => .error ()
  | _ => .ok ""

/-- The constant entries of `tag_close_map` (only `heading` has a
placeholder and is handled separately in `getTagClose`). -/
def tagCloseConst (tag : String) : Option String :=
  match tag with
  | "paragraph" => some "</p>"
  | "strong" => some "</strong>"
  | "em" => some "</em>"
  | "underline" => some "</u>"
  | "strikethrough" => some "</s>"
  | "ordered_list" => some "</ol>"
  | "blockquote" => some "</blockquote>"
  | "bullet_list" => some "</ul>"
  | "list_item" => some "</li>"
  | "check_list" => some "</ul>"
  | "check_list_item" => some "</li>"
  | "table" => some "</table>"
  | "table_row" => some "</tr>"
  | "table_cell" => some "</td>"
  | "table_header" => some "</th>"
  | "image" => some ""
  | "highlight" => some "</span>"
  | "font_size" => some "</span>"
  | "font_color" => some "</span>"
  | "link" => some "</a>"
  | "horizontal_rule" => some ""
  | "code_block" => some "</code></pre>"
  | "call_out_box" => some "</p></div>"
  | _ => none

/-- `html_mapper.get_tag_close tag **kwargs`: the closing template
formatted with the raw attrs (no defaults); `''` for unknown tags.  The
`heading` template `'</h{level}>'` raises `KeyError` when `level` is
missing from the attrs. -/
def getTagClose (tag : String) (attrs : List (String × String)) : Except Unit String :=
  if tag = "heading" then
    match alookup attrs "level" with
    | some lv => .ok ("</h" ++ lv ++ ">")
    | none => .error ()
  else .ok ((tagCloseConst tag).getD "")

/-- One replacement pass `s.replace(c, repl)` for a single-character
pattern. -/
def charReplace (c : Char) (repl : List Char) (l : List Char) : List Char :=
  l.flatMap (fun x => if x = c then repl else [x])

/-- The apostrophe character (`chr 39`). -/
def apos : Char := Char.ofNat 39

/-- The chained `str.replace` calls at the top of
`html_mapper.handle_text_marks`, escaping `&`, `<`, `>`, `"` and the
apostrophe, in that order. -/
def escapeHtml (l : List Char) : List Char :=
  charReplace apos "&#39;".data
    (charReplace '"' "&quot;".data
      (charReplace '>' "&gt;".data
        (charReplace '<' "&lt;".data
          (charReplace '&' "&amp;".data l))))

/-- A BoxNote text mark: `{'type': ..., 'attrs': {...}}`. -/
structure Mark where
  type : String
  attrs : List (String × String)

/-- The mark loop of `handle_text_marks`: marks whose type is a
`tag_open_map` key contribute an opening tag (appended to `tag_starts`)
and a closing tag (inserted at the front of `tag_ends`, so the closes
come out in reverse order of the opens); other marks are skipped.  An
exception from `get_tag_open`/`get_tag_close` aborts the whole loop. -/
def buildMarkTags : List Mark → Except Unit (List String × List String)
  | [] => .ok ([], [])
  | m :: ms =>
    if tagOpenKeys.contains m.type then
      match getTagOpen m.type m.attrs with
      | .error e => .error e
      | .ok o =>
        match getTagClose m.type m.attrs with
        | .error e => .error e
        | .ok c =>
          match buildMarkTags ms with
          | .error e => .error e
          | .ok (ss, es) => .ok (o :: ss, es ++ [c])
    else buildMarkTags ms

/-- `html_mapper.handle_text_marks`: `''` for falsy text; otherwise the
text is HTML-escaped, the marks are processed **in encounter order**,
and the result is `''.join(tag_starts) + text + ''.join(tag_ends)`.
The `except Exception` handler returns the (escaped) text alone when
processing any mark raises. -/
def handleTextMarks (marks : List Mark) (text : String) : String :=
  if text = "" then ""
  else
    let esc := String.mk (escapeHtml text.data)
    match buildMarkTags marks with
    | .ok (ss, es) => pyJoin ss ++ esc ++ pyJoin es
    | .error _ => esc

/-- Truthiness of an optional string (`if token and ...`): present and
non-empty. -/
def strTruthy : Option String → Bool
  | some s => s ≠ ""
  | none => false

/-- `html_mapper.handle_image`, with the two side-effecting resolution
steps passed as oracles: `download b f` is the result of
`download_image(b, f, workdir, token, user)` and `findLocal f` the
result of `find_local_image(f, title, workdir)` (both `none` on
failure, and a falsy `Path('')` result is treated like the source's
`if downloaded_path:` / `if image_path:` guards).  `attrs['fileName']`
in the Box branch is a direct index and raises `KeyError` when the key
is missing; the function's outer handler turns any exception into
`''`. -/
def handleImageE (download : String → String → Option String)
    (findLocal : String → Option String) (attrs : List (String × String))
    (hasWorkdir : Bool) (token : Option String) : Except Unit String :=
  if ¬ hasWorkdir then .ok "" else
  let srcE : Except Unit String :=
    if strTruthy token && strTruthy (alookup attrs "boxFileId") then
      match alookup attrs "fileName" with
      | none => .error ()
      | some fn =>
        match download ((alookup attrs "boxFileId").getD "") fn with
        | some p => .ok (if p = "" then "" else p)
        | none => .ok ""
    else
      match alookup attrs "fileName" with
      | some fn =>
        if fn ≠ "" then
          match findLocal fn with
          | some p => .ok (if p = "" then "" else p)
          | none => .ok ""
        else .ok ""
      | none => .ok ""
  match srcE with
  | .error e => .error e
  | .ok src =>
    if src = "" then .ok ""
    else
      getTagOpen "image"
        [("src", src), ("alt", attrD attrs "fileName" "image"),
         ("title", attrD attrs "fileName" "")]

/-- `handle_image` with its outer `except Exception: return ''`. -/
def handleImage (download : String → String → Option String)
    (findLocal : String → Option String) (attrs : List (String × String))
    (hasWorkdir : Bool) (token : Option String) : String :=
  match handleImageE download findLocal attrs hasWorkdir token with
  | .ok s => s
  | .error _ => ""

/-! ## `handlers/html_handler.py` — the fallback parse pipeline -/

/-- Substring test (Python `sub in s`), as a Boolean scan. -/
def containsSub (pat : List Char) : List Char → Bool
  | [] => pat.isPrefixOf []
  | c :: cs => pat.isPrefixOf (c :: cs) || containsSub pat cs

/-- Python `sub in s` on `String`s. -/
def pyIn (sub s : String) : Bool := containsSub sub.data s.data

/-- The literal pattern of `re.sub(r'<p style="text-align: left"></p>', '', result)`
in `BoxNoteParser.parse` (no character of it is a regex metacharacter). -/
def emptyParaPat : List Char := "<p style=\"text-align: left\"></p>".data

/-- Left-to-right removal of the non-overlapping occurrences of
`emptyParaPat`, the effect of the `re.sub(..., '', result)` call: the
`Nat` argument counts pattern characters still to be skipped after a
match. -/
def rmEmptyPAux : Nat → List Char → List Char
  | _, [] => []
  | k + 1, _ :: cs => rmEmptyPAux k cs
  | 0, c :: cs =>
    if emptyParaPat.isPrefixOf (c :: cs) then rmEmptyPAux (emptyParaPat.length - 1) cs
    else c :: rmEmptyPAux 0 cs

/-- `re.sub(r'<p style="text-align: left"></p>', '', result)`. -/
def rmEmptyP (l : List Char) : List Char := rmEmptyPAux 0 l

/-- `re.sub(r'\s+', ' ', result)`: every maximal whitespace run becomes
one space; the `Bool` records whether the previous character was
whitespace. -/
def collapseWsAux : Bool → List Char → List Char
  | _, [] => []
  | prevWs, c :: cs =>
    if isPyWs c then
      if prevWs then collapseWsAux true cs else ' ' :: collapseWsAux true cs
    else c :: collapseWsAux false cs

/-- `re.sub(r'\s+', ' ', result)`. -/
def collapseWs (l : List Char) : List Char := collapseWsAux false l

/-- The guard `text_content.strip().startswith('<style')` of
`parse_content`'s text branch. -/
def startsWithStyle (t : String) : Bool :=
  "<style".data.isPrefixOf (pyStrip t.data)

/-- Run of an `Except Unit String` value with exceptions erased (the
calls below cannot raise, see the surrounding comments). -/
def orEmpty : Except Unit String → String
  | .ok s => s
  | .error _ => ""

/-- The `contents` list built by `BoxNoteParser.parse` when
`try_parse_json` has fallen back to the plain-text document
`{"doc": {"content": {"type": "paragraph", "content": [{"type": "text",
"text": content}]}}}`: the fixed document head, the paragraph opened by
`get_tag_open('paragraph', alignment='left')` (the fallback node has no
marks), the text node rendered by `handle_text_marks([], content)`
unless its stripped text starts with `'<style'`, and the closing
tags. -/
def fallbackContents (title content : String) : List String :=
  ["<!DOCTYPE html>", "<html>", "<head>", "<meta charset=\"UTF-8\">",
   "<title>" ++ title ++ "</title>", "</head>", "<body>",
   orEmpty (getTagOpen "paragraph" [("alignment", "left")])]
  ++ (if startsWithStyle content then [] else [handleTextMarks [] content])
  ++ [orEmpty (getTagClose "paragraph" []), "</body>", "</html>"]

/-- The tail of `BoxNoteParser.parse` on the fallback document:
`''.join(filter(None, contents))`, removal of the literal empty-left-
paragraph pattern, and whitespace collapsing. -/
def parseFallback (title content : String) : String :=
  let joined := pyJoin ((fallbackContents title content).filter (fun s => s ≠ ""))
  String.mk (collapseWs (rmEmptyP joined.data))

/-! ## `handlers/docx_handler.py` — the `HtmlToDocx` reconstructor -/

/-- `LIST_INDENT = 0.5` (inches). -/
def LIST_INDENT : ℚ := 1 / 2

/-- `MAX_INDENT = 5.5` (inches). -/
def MAX_INDENT : ℚ := 11 / 2

/-- A DOCX run: its text and the font flags `apply_font_style` can set
(`python-docx` leaves them unset, modelled `false`, by default). -/
structure DRun where
  text : String := ""
  bold : Bool := false
  italic : Bool := false
  underline : Bool := false
  strike : Bool := false
deriving DecidableEq

/-- A DOCX paragraph: style name, alignment, left indent in inches
(`Inches(x)` is exact for the rationals occurring here), runs. -/
structure DPara where
  style : Option String := none
  alignment : Option String := none
  leftIndent : Option ℚ := none
  runs : List DRun := []
deriving DecidableEq

/-- A DOCX table as `process_table` builds it: dimensions, style name,
and the cell grid of (text, bold) pairs. -/
structure DTable where
  nrows : Nat
  ncols : Nat
  style : String
  cells : List (List (String × Bool))
deriving DecidableEq

/-- A body-level element of the document being built. -/
inductive DBlock where
  | para (p : DPara)
  | table (t : DTable)
deriving DecidableEq

/-- The mutable state of `HtmlToDocx` that the parser callbacks touch:
`para` and `run` are the `self.paragraph` / `self.run` pointers
(indices into `doc` rather than object references). -/
structure PState where
  doc : List DBlock := []
  para : Option Nat := none
  run : Option (Nat × Nat) := none
  skip : Bool := false
  skipTag : Option String := none
  listType : Option String := none
  listLevel : Int := 0
  tableContent : List (List (String × Bool)) := []
  tableRow : Option (List (String × Bool)) := none
  tableCell : Option (List String) := none
  inHeader : Bool := false
deriving DecidableEq

/-- `self.doc.add_paragraph(...)` followed by `self.paragraph = ...`. -/
def newParagraph (st : PState) (p : DPara) : PState :=
  { st with doc := st.doc ++ [.para p], para := some st.doc.length }

/-- Update of the element at an index (mutation of the object a Python
reference points at). -/
def listModify {α : Type} (f : α → α) : Nat → List α → List α
  | _, [] => []
  | 0, x :: xs => f x :: xs
  | n + 1, x :: xs => x :: listModify f n xs

/-- In-place update of the paragraph stored at block index `i`. -/
def modifyPara (st : PState) (i : Nat) (f : DPara → DPara) : PState :=
  { st with
    doc := listModify (fun b => match b with | .para p => .para (f p) | b => b) i st.doc }

/-- Number of runs of the paragraph at block index `i`. -/
def paraRunCount (st : PState) (i : Nat) : Nat :=
  match st.doc.get? i with
  | some (.para p) => p.runs.length
  | _ => 0

/-- `self.run = paragraph.add_run(...)` on the paragraph at block `i`. -/
def addRun (st : PState) (i : Nat) (r : DRun) : PState :=
  { modifyPara st i (fun p => { p with runs := p.runs ++ [r] }) with
    run := some (i, paraRunCount st i) }

/-- In-place update of the run `self.run` points at. -/
def modifyRun (st : PState) (ptr : Nat × Nat) (f : DRun → DRun) : PState :=
  { st with
    doc := listModify
      (fun b => match b with
        | .para p => .para { p with runs := listModify f ptr.2 p.runs }
        | b => b) ptr.1 st.doc }

/-- Last-wins dictionary lookup, the semantics of `dict(attrs)[k]` /
`styles[key]` when a key is assigned repeatedly. -/
def pyDictGet (d : List (String × String)) (k : String) : Option String :=
  (d.reverse.find? (fun p => p.1 = k)).map (fun p => p.2)

/-- ASCII lowercasing, the model of Python `str.lower()`. -/
def pyLowerChar (c : Char) : Char :=
  if 'A' ≤ c && c ≤ 'Z' then Char.ofNat (c.toNat + 32) else c

/-- `str.lower()` on character lists (ASCII model). -/
def pyLower (l : List Char) : List Char := l.map pyLowerChar

/-- Python `s.split(sep)` for a one-character separator (`''.split`
pieces include empty ones, and the empty string splits to `['']`). -/
def splitOnChar (sep : Char) : List Char → List (List Char)
  | [] => [[]]
  | x :: xs =>
    match splitOnChar sep xs with
    | [] => [[]]
    | g :: gs => if x = sep then [] :: g :: gs else (x :: g) :: gs

/-- Key/value split of `style.split(':', 1)` (callers have checked that
a colon is present). -/
def splitFirstColon (l : List Char) : List Char × List Char :=
  (l.takeWhile (fun c => c ≠ ':'), (l.dropWhile (fun c => c ≠ ':')).drop 1)

/-- `re.findall(r'\d+', value)`: the maximal digit runs, left to right;
the accumulator holds the reversed run being scanned. -/
def digitRunsAux : List Char → Option (List Char) → List (List Char)
  | [], none => []
  | [], some r => [r.reverse]
  | c :: cs, none =>
    if isAsciiDigit c then digitRunsAux cs (some [c]) else digitRunsAux cs none
  | c :: cs, some r =>
    if isAsciiDigit c then digitRunsAux cs (some (c :: r))
    else r.reverse :: digitRunsAux cs none

/-- `re.findall(r'\d+', value)`. -/
def digitRuns (l : List Char) : List (List Char) := digitRunsAux l none

/-- `int` of a digit run. -/
def digitsToNat (l : List Char) : Nat :=
  l.foldl (fun n c => 10 * n + (c.toNat - 48)) 0

/-- `'{:02x}'.format(n)`: lowercase hex, zero-padded to width 2. -/
def pyHex02 (n : Nat) : List Char :=
  let ds := Nat.toDigits 16 n
  if ds.length < 2 then '0' :: ds else ds

/-- The `if 'rgb' in value:` branch of `parse_style_string`: when the
value holds exactly three digit runs they are reformatted as
`'#{:02x}{:02x}{:02x}'`, otherwise the value is left alone. -/
def rgbValueToHex (v : List Char) : List Char :=
  let runs := digitRuns v
  match runs with
  | [r1, r2, r3] =>
    '#' :: (pyHex02 (digitsToNat r1) ++ pyHex02 (digitsToNat r2) ++
            pyHex02 (digitsToNat r3))
  | _ => v

/-- `HtmlToDocx.parse_style_string`: split on `';'`, keep the pieces
containing `':'`, strip and lowercase the key, strip the value and
rewrite `rgb` values; assignments accumulate dict-style (last write
wins under `pyDictGet`).  `str.lower` is modelled on ASCII. -/
def parseStyleString (s : String) : List (String × String) :=
  (splitOnChar ';' s.data).foldl (fun acc pl =>
    if ¬ pl.contains ':' then acc
    else
      let kv := splitFirstColon pl
      let k := String.mk (pyLower (pyStrip kv.1))
      let v1 := pyStrip kv.2
      let v := if containsSub "rgb".data v1 then rgbValueToHex v1 else v1
      acc ++ [(k, String.mk v)]) []

/-- Character class of `re.findall(r'[\d.]+', margin)`. -/
def isNumDotChar (c : Char) : Bool := isAsciiDigit c || c = '.'

/-- `re.findall(r'[\d.]+', margin)[0]`: the first maximal run of digits
and dots, `none` when there is none (the source's `IndexError`). -/
def firstNumRun : List Char → Option (List Char)
  | [] => none
  | c :: cs =>
    if isNumDotChar c then some ((c :: cs).takeWhile isNumDotChar)
    else firstNumRun cs

/-- `float(s)` for the strings `[\d.]+` can produce: defined iff the
run has at least one digit and at most one dot (otherwise `float`
raises `ValueError`); the value is exact in `ℚ`. -/
def pyFloat? (l : List Char) : Option ℚ :=
  if l.any isAsciiDigit && (l.filter (fun c => c = '.')).length ≤ 1 then
    let intPart := l.takeWhile (fun c => c ≠ '.')
    let fracPart := (l.dropWhile (fun c => c ≠ '.')).drop 1
    some ((digitsToNat intPart : ℚ) + (digitsToNat fracPart : ℚ) / (10 ^ fracPart.length))
  else none

/-- `HtmlToDocx.apply_paragraph_style`: alignment first, then
`margin-left` with `px`→inches (÷96) or `pt`→inches (÷72) and the
`min(value, MAX_INDENT)` cap.  An exception in the margin computation
(`IndexError`/`ValueError`) is caught by the method's handler after the
alignment assignment has already happened. -/
def applyParagraphStyle (p : DPara) (style : List (String × String)) : DPara :=
  let p1 :=
    match pyDictGet style "text-align" with
    | some a =>
      if a = "center" || a = "right" || a = "justify" then { p with alignment := some a }
      else p
    | none => p
  match pyDictGet style "margin-left" with
  | none => p1
  | some m =>
    match firstNumRun m.data with
    | none => p1
    | some numRun =>
      match pyFloat? numRun with
      | none => p1
      | some v =>
        let v2 := if pyIn "px" m then v / 96 else if pyIn "pt" m then v / 72 else v
        { p1 with leftIndent := some (min v2 MAX_INDENT) }

/-- `apply_font_style` on a run, for the six tags the `starttag`
branch dispatches (`font_styles` maps them to these four flags). -/
def setFontFlag (tag : String) (r : DRun) : DRun :=
  if tag = "b" || tag = "strong" then { r with bold := true }
  else if tag = "em" || tag = "i" then { r with italic := true }
  else if tag = "u" then { r with underline := true }
  else if tag = "s" then { r with strike := true }
  else r

/-- `HtmlToDocx.process_table`: nothing for an empty buffer; otherwise
`rows = len(buffer)`, `cols = max(len(row))`, and unless a dimension is
zero a `TableGrid`-styled table is appended whose cell `(i, j)` holds
the buffered `(text, is_header)` pair for `j < len(row i)` (the guard
`col_idx < cols` always holds because `cols` is the maximum row length)
and stays at the `('', False)` default beyond the row's width; `bold`
is set on a cell's run exactly when the buffered `is_header` flag is
true (the `cell.text` setter leaves a single run). -/
def processTable (st : PState) : PState :=
  if st.tableContent = [] then st
  else
    let rows := st.tableContent.length
    let cols := ((st.tableContent.map List.length).max?).getD 0
    if rows = 0 || cols = 0 then st
    else
      let cells := st.tableContent.map
        (fun row => row ++ List.replicate (cols - row.length) ("", false))
      { st with doc := st.doc ++ [.table ⟨rows, cols, "TableGrid", cells⟩] }

/-- `HtmlToDocx.handle_starttag`.  The `<a>` branch calls
`self.handle_link(attrs_dict['href'])`, one positional argument for the
two-parameter method `handle_link(self, href, text)`; the call raises
`TypeError` before the method body runs and the branch's
`except Exception` swallows it, so only the paragraph creation that
precedes the call persists.  The `<img>` branch inserts a picture from
the file system and is not modelled (no theorem feeds an `img` tag). -/
def handleStarttag (st : PState) (tag : String) (attrs : List (String × String)) : PState :=
  if st.skip then st
  else if tag = "style" then { st with skip := true, skipTag := some "style" }
  else if tag = "p" then
    let p : DPara :=
      match pyDictGet attrs "style" with
      | some sv => applyParagraphStyle {} (parseStyleString sv)
      | none => {}
    newParagraph st p
  else if tag = "ul" || tag = "ol" then
    { st with listType := some tag, listLevel := st.listLevel + 1 }
  else if tag = "li" then
    let sty := if st.listType = some "ul" then "List Bullet" else "List Number"
    let p : DPara :=
      { style := some sty,
        leftIndent := some (min ((st.listLevel : ℚ) * LIST_INDENT) MAX_INDENT) }
    { newParagraph st p with run := none }
  else if tag = "table" then { st with tableContent := [], inHeader := false }
  else if tag = "tr" then { st with tableRow := some [] }
  else if tag = "td" || tag = "th" then
    { st with inHeader := tag = "th", tableCell := some [] }
  else if tag = "strong" || tag = "b" || tag = "em" || tag = "i" || tag = "u" || tag = "s" then
    let st1 := if st.para = none then newParagraph st {} else st
    let st2 := addRun st1 (st1.para.getD 0) {}
    match st2.run with
    | some ptr => modifyRun st2 ptr (setFontFlag tag)
    | none => st2
  else if tag = "a" && (pyDictGet attrs "href").isSome then
    if st.para = none then newParagraph st {} else st
  else st

/-- `HtmlToDocx.handle_endtag`. -/
def handleEndtag (st : PState) (tag : String) : PState :=
  if st.skip then
    if some tag = st.skipTag then { st with skip := false, skipTag := none } else st
  else if tag = "ul" || tag = "ol" then
    let lvl := st.listLevel - 1
    if lvl = 0 then { st with listLevel := lvl, listType := none }
    else { st with listLevel := lvl }
  else if tag = "table" then
    { processTable st with tableContent := [] }
  else if tag = "tr" then
    match st.tableRow with
    | some row =>
      if row ≠ [] then
        { st with tableContent := st.tableContent ++ [row], tableRow := none }
      else { st with tableRow := none }
    | none => { st with tableRow := none }
  else if tag = "td" || tag = "th" then
    match st.tableCell, st.tableRow with
    | some cell, some row =>
      if cell ≠ [] then
        { st with tableRow := some (row ++ [(pyJoin cell, st.inHeader)]),
                  tableCell := none }
      else { st with tableCell := none }
    | _, _ => { st with tableCell := none }
  else st

/-- `HtmlToDocx.handle_data`: whitespace-only data is discarded by the
`not data.strip()` guard; otherwise a paragraph is ensured, and the
text either becomes a fresh run (when `self.run` is `None`) or is
appended to the run `self.run` still points at. -/
def handleData (st : PState) (data : String) : PState :=
  if st.skip || pyStrip data.data = [] then st
  else
    let st1 := if st.para = none then newParagraph st {} else st
    match st1.run with
    | none => addRun st1 (st1.para.getD 0) { text := data }
    | some ptr => modifyRun st1 ptr (fun r => { r with text := r.text ++ data })

/-- One event of Python's `HTMLParser` feed. -/
inductive HEvent where
  | start (tag : String) (attrs : List (String × String))
  | close (tag : String)
  | data (s : String)

/-- Dispatch of one parser event to the `HtmlToDocx` callbacks. -/
def stepEvent (st : PState) : HEvent → PState
  | .start t a => handleStarttag st t a
  | .close t => handleEndtag st t
  | .data s => handleData st s

/-- Feeding a sequence of parser events through `HtmlToDocx`. -/
def runEvents (evs : List HEvent) (st : PState) : PState :=
  evs.foldl stepEvent st

/-! ## Specification-side predicates

The definitions below transcribe the *specification's words* (not the
source); the theorems compare them with the executable embeddings
above. -/

/-- Spec: a colour of the six-hex-digit shape `#RRGGBB`. -/
def specHexColor (l : List Char) : Prop :=
  ∃ hex : List Char, l = '#' :: hex ∧ hex.length = 6 ∧ ∀ c ∈ hex, isHexChar c = true

/-- Spec: a colour of the shape `rgb(d,d,d)` with one-to-three-digit
components (and the whitespace the component syntax allows after each
comma). -/
def specRgbColor (l : List Char) : Prop :=
  ∃ d1 w1 d2 w2 d3 : List Char,
    l = "rgb(".data ++ d1 ++ [','] ++ w1 ++ d2 ++ [','] ++ w2 ++ d3 ++ [')'] ∧
    (1 ≤ d1.length ∧ d1.length ≤ 3 ∧ ∀ c ∈ d1, isAsciiDigit c = true) ∧
    (1 ≤ d2.length ∧ d2.length ≤ 3 ∧ ∀ c ∈ d2, isAsciiDigit c = true) ∧
    (1 ≤ d3.length ∧ d3.length ≤ 3 ∧ ∀ c ∈ d3, isAsciiDigit c = true) ∧
    (∀ c ∈ w1, isPyWs c = true) ∧ (∀ c ∈ w2, isPyWs c = true)

/-- Spec: the colour pattern of the claim — hex or rgb. -/
def specColor (s : String) : Prop :=
  specHexColor s.data ∨ specRgbColor s.data

/-- The amended colour pattern: the claim's pattern, optionally
followed by one trailing newline (the artefact of Python's `$`
anchor). -/
def specColorNl (s : String) : Prop :=
  specColor s ∨ ∃ t : List Char, s.data = t ++ ['\n'] ∧ (specHexColor t ∨ specRgbColor t)

/-- The whitespace state of `collapseWsAux` after consuming a chunk:
whether the chunk's last character (or, for an empty chunk, the
previous state) is whitespace. -/
def wsStateAfter (prev : Bool) (u : List Char) : Bool :=
  u.foldl (fun _ c => isPyWs c) prev

/-! ## Helper lemmas -/

theorem listModify_concat {α : Type} (l : List α) (a : α) (f : α → α) :
    listModify f l.length (l ++ [a]) = l ++ [f a] := by
  induction l with
  | nil => simp [listModify]
  | cons x xs ih => simp [listModify, ih]

theorem getp_concat {α : Type} (l : List α) (a : α) : (l ++ [a])[l.length]? = some a :=
  List.getElem?_concat_length l a

theorem notPfx_of_append (p : List Char) :
    ∀ (x y : List Char), (p.take x.length).isPrefixOf x = false →
      p.isPrefixOf (x ++ y) = false := by
  induction p with
  | nil => intro x y h; simp [List.isPrefixOf] at h
  | cons a as ih =>
    intro x y h
    cases x with
    | nil => simp [List.isPrefixOf] at h
    | cons b bs =>
      simp only [List.length_cons, List.take_succ_cons, List.isPrefixOf] at h
      simp only [List.cons_append, List.isPrefixOf]
      rcases Bool.and_eq_false_iff.mp h with h | h
      · simp [h]
      · simp [ih bs y h]

theorem rmP_cons_not_lt (c : Char) (cs : List Char) (hc : c ≠ '<') :
    rmEmptyPAux 0 (c :: cs) = c :: rmEmptyPAux 0 cs := by
  have hpfx : emptyParaPat.isPrefixOf (c :: cs) = false := by
    rw [show emptyParaPat = '<' :: "p style=\"text-align: left\"></p>".data from rfl]
    simp only [List.isPrefixOf, Bool.and_eq_false_iff]
    left
    simp [beq_eq_false_iff_ne]
    exact fun e => hc e.symm
  rw [rmEmptyPAux, hpfx]
  simp

theorem rmP_append_noLt (x : List Char) (hx : ∀ c ∈ x, c ≠ '<') :
    ∀ y : List Char, rmEmptyPAux 0 (x ++ y) = x ++ rmEmptyPAux 0 y := by
  induction x with
  | nil => intro y; simp
  | cons c cs ih =>
    intro y
    rw [List.cons_append, rmP_cons_not_lt c (cs ++ y) (hx c (by simp)),
        ih (fun a ha => hx a (by simp [ha])) y]
    simp

theorem rmP_append_resolved (x : List Char)
    (h : ∀ i, i < x.length → (emptyParaPat.take (x.length - i)).isPrefixOf (x.drop i) = false) :
    ∀ y : List Char, rmEmptyPAux 0 (x ++ y) = x ++ rmEmptyPAux 0 y := by
  induction x with
  | nil => intro y; simp
  | cons c cs ih =>
    intro y
    have h0 : (emptyParaPat.take (c :: cs).length).isPrefixOf (c :: cs) = false := by
      have := h 0 (by simp)
      simpa using this
    have hpfx : emptyParaPat.isPrefixOf ((c :: cs) ++ y) = false :=
      notPfx_of_append emptyParaPat (c :: cs) y h0
    have harg : ∀ i, i < cs.length →
        (emptyParaPat.take (cs.length - i)).isPrefixOf (cs.drop i) = false := by
      intro i hi
      have := h (i + 1) (by simpa using Nat.succ_lt_succ hi)
      simpa using this
    rw [List.cons_append] at hpfx ⊢
    rw [rmEmptyPAux, hpfx]
    simp only [Bool.false_eq_true, if_false]
    rw [ih harg y]
    simp

theorem cw_append (u : List Char) :
    ∀ (prev : Bool) (v : List Char),
      collapseWsAux prev (u ++ v) =
        collapseWsAux prev u ++ collapseWsAux (wsStateAfter prev u) v := by
  induction u with
  | nil => intro prev v; simp [collapseWsAux, wsStateAfter]
  | cons c cs ih =>
    intro prev v
    by_cases hc : isPyWs c = true
    · cases prev with
      | true => simp [collapseWsAux, hc, ih, wsStateAfter]
      | false => simp [collapseWsAux, hc, ih, wsStateAfter]
    · simp at hc
      simp [collapseWsAux, hc, ih, wsStateAfter]

theorem cw_prev_irrelevant (prev : Bool) (c : Char) (cs : List Char)
    (hc : isPyWs c = false) :
    collapseWsAux prev (c :: cs) = collapseWsAux false (c :: cs) := by
  cases prev <;> simp [collapseWsAux, hc]

theorem mem_charReplace_imp (c : Char) (repl l : List Char) (x : Char)
    (hx : x ∈ charReplace c repl l) : x ∈ repl ∨ (x ∈ l ∧ x ≠ c) := by
  unfold charReplace at hx
  rcases List.mem_flatMap.mp hx with ⟨a, ha, hmem⟩
  by_cases hac : a = c
  · rw [if_pos hac] at hmem
    exact Or.inl hmem
  · rw [if_neg hac] at hmem
    rcases List.mem_singleton.mp hmem with rfl
    exact Or.inr ⟨ha, hac⟩

theorem esc_no_lt (l : List Char) : ∀ x ∈ escapeHtml l, x ≠ '<' := by
  intro x hx
  unfold escapeHtml at hx
  rcases mem_charReplace_imp _ _ _ _ hx with h | ⟨hx, _⟩
  · intro e; subst e; exact absurd h (by decide)
  rcases mem_charReplace_imp _ _ _ _ hx with h | ⟨hx, _⟩
  · intro e; subst e; exact absurd h (by decide)
  rcases mem_charReplace_imp _ _ _ _ hx with h | ⟨hx, _⟩
  · intro e; subst e; exact absurd h (by decide)
  rcases mem_charReplace_imp _ _ _ _ hx with h | ⟨_, hne⟩
  · intro e; subst e; exact absurd h (by decide)
  · exact hne

theorem join_filter_ne_empty (ps : List String) :
    pyJoin (ps.filter (fun s => s ≠ "")) = pyJoin ps := by
  induction ps with
  | nil => rfl
  | cons p ps ih =>
    by_cases hp : p = ""
    · subst hp
      rw [show (("" : String) :: ps).filter (fun s => s ≠ "") = ps.filter (fun s => s ≠ "") from by
        simp [List.filter_cons]]
      rw [ih]
      apply String.ext
      simp [pyJoin, String.data_append]
    · rw [show (p :: ps).filter (fun s => s ≠ "") = p :: ps.filter (fun s => s ≠ "") from by
        simp [List.filter_cons, hp]]
      simp only [pyJoin]
      rw [ih]

theorem handleTextMarks_nil (t : String) :
    handleTextMarks [] t = String.mk (escapeHtml t.data) := by
  by_cases ht : t = ""
  · subst ht
    rfl
  · simp [handleTextMarks, buildMarkTags, ht, pyJoin]

theorem fallback_joined (title content : String)
    (hstyle : startsWithStyle content = false) :
    (pyJoin ((fallbackContents title content).filter (fun s => s ≠ ""))).data =
      "<!DOCTYPE html><html><head><meta charset=\"UTF-8\"><title>".data ++
      (title.data ++
       ("</title></head><body><p style=\"text-align: left; margin-bottom: 1em; line-height: 1.6;\">".data ++
        (escapeHtml content.data ++ "</p></body></html>".data))) := by
  rw [join_filter_ne_empty]
  unfold fallbackContents
  rw [show (orEmpty (getTagOpen "paragraph" [("alignment", "left")])) =
      "<p style=\"text-align: left; margin-bottom: 1em; line-height: 1.6;\">" from rfl]
  rw [show (orEmpty (getTagClose "paragraph" [])) = "</p>" from rfl]
  simp only [hstyle, Bool.false_eq_true, if_false]
  rw [handleTextMarks_nil]
  simp [pyJoin, String.data_append, List.append_assoc]

theorem isPfx_append (p x y : List Char) (h : p.isPrefixOf x = true) :
    p.isPrefixOf (x ++ y) = true := by
  rw [List.isPrefixOf_iff_prefix] at h ⊢
  exact h.trans (List.prefix_append x y)

theorem containsSub_append_left (p x y : List Char) (h : containsSub p x = true) :
    containsSub p (x ++ y) = true := by
  induction x with
  | nil =>
    unfold containsSub at h
    cases p with
    | nil => cases y <;> simp [containsSub, List.isPrefixOf]
    | cons a as => simp [List.isPrefixOf] at h
  | cons c cs ih =>
    unfold containsSub at h ⊢
    cases hor : p.isPrefixOf (c :: cs) with
    | true =>
      rw [List.cons_append]
      simp only [containsSub, Bool.or_eq_true]
      left
      rw [← List.cons_append]
      exact isPfx_append p (c :: cs) y hor
    | false =>
      rw [hor] at h
      simp only [Bool.false_or] at h
      rw [List.cons_append]
      simp [ih h]

theorem containsSub_append_right (p x y : List Char) (h : containsSub p y = true) :
    containsSub p (x ++ y) = true := by
  induction x with
  | nil => simpa using h
  | cons c cs ih =>
    rw [List.cons_append]
    unfold containsSub
    simp [ih]

theorem takeWhile_append_stop (p : Char → Bool) (xs : List Char)
    (hxs : ∀ x ∈ xs, p x = true) (y : Char) (hy : p y = false) (ys : List Char) :
    (xs ++ y :: ys).takeWhile p = xs ∧ (xs ++ y :: ys).dropWhile p = y :: ys := by
  induction xs with
  | nil => simp [List.takeWhile, List.dropWhile, hy]
  | cons x xs ih =>
    have hx : p x = true := hxs x (by simp)
    have ih' := ih (fun a ha => hxs a (by simp [ha]))
    simp [List.takeWhile, List.dropWhile, hx, ih'.1, ih'.2]

theorem digit_not_ws (c : Char) (h : isAsciiDigit c = true) : isPyWs c = false := by
  unfold isPyWs
  simp only [Bool.or_eq_false_iff, decide_eq_false_iff_not]
  refine ⟨⟨⟨⟨⟨?_, ?_⟩, ?_⟩, ?_⟩, ?_⟩, ?_⟩ <;>
    (intro e; subst e; exact absurd h (by decide))

theorem pChar_eq_some (c : Char) (l r : List Char) : pChar c l = some r ↔ l = c :: r := by
  cases l with
  | nil => simp [pChar]
  | cons x xs =>
    unfold pChar
    by_cases hx : x = c
    · subst hx
      simp
    · simp [hx]

theorem pLit_eq_some (ps : List Char) : ∀ l r : List Char, pLit ps l = some r ↔ l = ps ++ r := by
  induction ps with
  | nil => intro l r; simp [pLit]
  | cons p ps ih =>
    intro l r
    cases l with
    | nil => simp [pLit]
    | cons x xs =>
      unfold pLit
      by_cases hx : x = p
      · subst hx
        simp [ih]
      · simp [hx]

theorem pDigits13_some (l r : List Char) (h : pDigits13 l = some r) :
    l.takeWhile isAsciiDigit ++ r = l ∧
    1 ≤ (l.takeWhile isAsciiDigit).length ∧ (l.takeWhile isAsciiDigit).length ≤ 3 ∧
    ∀ c ∈ l.takeWhile isAsciiDigit, isAsciiDigit c = true := by
  unfold pDigits13 at h
  by_cases hb : 1 ≤ (l.takeWhile isAsciiDigit).length ∧ (l.takeWhile isAsciiDigit).length ≤ 3
  · rw [if_pos hb] at h
    obtain ⟨rfl⟩ := Option.some_inj.mp h.symm ▸ (rfl : r = r)
    refine ⟨?_, hb.1, hb.2, fun c hc => List.mem_takeWhile_imp hc⟩
    rw [show r = l.dropWhile isAsciiDigit from (Option.some_inj.mp h).symm]
    exact List.takeWhile_append_dropWhile isAsciiDigit l
  · rw [if_neg hb] at h
    exact absurd h (by simp)

theorem pDigits13_build (d : List Char) (y : Char) (ys : List Char)
    (h1 : 1 ≤ d.length) (h2 : d.length ≤ 3)
    (hd : ∀ c ∈ d, isAsciiDigit c = true) (hy : isAsciiDigit y = false) :
    pDigits13 (d ++ y :: ys) = some (y :: ys) := by
  have hs := takeWhile_append_stop isAsciiDigit d hd y hy ys
  unfold pDigits13
  rw [hs.1, hs.2, if_pos ⟨h1, h2⟩]



theorem matchRgb_iff (l : List Char) :
    matchRgbColor l = true ↔
      (specRgbColor l ∨ ∃ t, l = t ++ ['\n'] ∧ specRgbColor t) := by
  constructor
  · intro h
    unfold matchRgbColor at h
    cases hp0 : pLit "rgb(".data l with
    | none => rw [hp0] at h; simp at h
    | some r0 =>
    rw [hp0] at h
    simp only [Option.some_bind] at h
    cases hp1 : pDigits13 r0 with
    | none => rw [hp1] at h; simp at h
    | some r1 =>
    rw [hp1] at h
    simp only [Option.some_bind] at h
    cases hp2 : pChar ',' r1 with
    | none => rw [hp2] at h; simp at h
    | some r2 =>
    rw [hp2] at h
    simp only [Option.some_bind] at h
    cases hp3 : pDigits13 (r2.dropWhile isPyWs) with
    | none => rw [hp3] at h; simp at h
    | some r3 =>
    rw [hp3] at h
    simp only [Option.some_bind] at h
    cases hp4 : pChar ',' r3 with
    | none => rw [hp4] at h; simp at h
    | some r4 =>
    rw [hp4] at h
    simp only [Option.some_bind] at h
    cases hp5 : pDigits13 (r4.dropWhile isPyWs) with
    | none => rw [hp5] at h; simp at h
    | some r5 =>
    rw [hp5] at h
    simp only [Option.some_bind] at h
    cases hp6 : pChar ')' r5 with
    | none => rw [hp6] at h; simp at h
    | some r6 =>
    rw [hp6] at h
    simp only [Option.map_some', Option.getD_some] at h
    -- decompose every step
    have e0 : l = "rgb(".data ++ r0 := (pLit_eq_some _ _ _).mp hp0
    obtain ⟨e1, b1a, b1b, m1⟩ := pDigits13_some _ _ hp1
    have e2 : r1 = ',' :: r2 := (pChar_eq_some _ _ _).mp hp2
    have e2' : r2 = r2.takeWhile isPyWs ++ r2.dropWhile isPyWs :=
      (List.takeWhile_append_dropWhile isPyWs r2).symm
    obtain ⟨e3, b2a, b2b, m2⟩ := pDigits13_some _ _ hp3
    have e4 : r3 = ',' :: r4 := (pChar_eq_some _ _ _).mp hp4
    have e4' : r4 = r4.takeWhile isPyWs ++ r4.dropWhile isPyWs :=
      (List.takeWhile_append_dropWhile isPyWs r4).symm
    obtain ⟨e5, b3a, b3b, m3⟩ := pDigits13_some _ _ hp5
    have e6 : r5 = ')' :: r6 := (pChar_eq_some _ _ _).mp hp6
    have mw1 : ∀ c ∈ r2.takeWhile isPyWs, isPyWs c = true :=
      fun c hc => List.mem_takeWhile_imp hc
    have mw2 : ∀ c ∈ r4.takeWhile isPyWs, isPyWs c = true :=
      fun c hc => List.mem_takeWhile_imp hc
    have hdec : l = "rgb(".data ++ r0.takeWhile isAsciiDigit ++ [','] ++
        r2.takeWhile isPyWs ++ (r2.dropWhile isPyWs).takeWhile isAsciiDigit ++ [','] ++
        r4.takeWhile isPyWs ++ (r4.dropWhile isPyWs).takeWhile isAsciiDigit ++ [')'] ++ r6 := by
      conv_lhs => rw [e0, ← e1, e2, e2', ← e3, e4, e4', ← e5, e6]
      simp [List.append_assoc]
    rcases (show r6 = [] ∨ r6 = ['\n'] by
        simpa [pyDollar, Bool.or_eq_true, decide_eq_true_eq] using h) with hr | hr
    · left
      refine ⟨r0.takeWhile isAsciiDigit, r2.takeWhile isPyWs,
        (r2.dropWhile isPyWs).takeWhile isAsciiDigit, r4.takeWhile isPyWs,
        (r4.dropWhile isPyWs).takeWhile isAsciiDigit, ?_,
        ⟨b1a, b1b, m1⟩, ⟨b2a, b2b, m2⟩, ⟨b3a, b3b, m3⟩, mw1, mw2⟩
      rw [hdec, hr]
      simp [List.append_assoc]
    · right
      refine ⟨"rgb(".data ++ r0.takeWhile isAsciiDigit ++ [','] ++
        r2.takeWhile isPyWs ++ (r2.dropWhile isPyWs).takeWhile isAsciiDigit ++ [','] ++
        r4.takeWhile isPyWs ++ (r4.dropWhile isPyWs).takeWhile isAsciiDigit ++ [')'], ?_,
        r0.takeWhile isAsciiDigit, r2.takeWhile isPyWs,
        (r2.dropWhile isPyWs).takeWhile isAsciiDigit, r4.takeWhile isPyWs,
        (r4.dropWhile isPyWs).takeWhile isAsciiDigit, by simp [List.append_assoc],
        ⟨b1a, b1b, m1⟩, ⟨b2a, b2b, m2⟩, ⟨b3a, b3b, m3⟩, mw1, mw2⟩
      rw [hdec, hr]
  · intro h
    have build : ∀ (d1 w1 d2 w2 d3 rest : List Char),
        (1 ≤ d1.length ∧ d1.length ≤ 3 ∧ ∀ c ∈ d1, isAsciiDigit c = true) →
        (1 ≤ d2.length ∧ d2.length ≤ 3 ∧ ∀ c ∈ d2, isAsciiDigit c = true) →
        (1 ≤ d3.length ∧ d3.length ≤ 3 ∧ ∀ c ∈ d3, isAsciiDigit c = true) →
        (∀ c ∈ w1, isPyWs c = true) → (∀ c ∈ w2, isPyWs c = true) →
        pyDollar rest = true →
        matchRgbColor ("rgb(".data ++ d1 ++ [','] ++ w1 ++ d2 ++ [','] ++ w2 ++ d3 ++ [')'] ++ rest) = true := by
      intro d1 w1 d2 w2 d3 rest hb1 hb2 hb3 hw1 hw2 hrest
      obtain ⟨c2, d2', rfl⟩ : ∃ c2 d2', d2 = c2 :: d2' := by
        cases d2 with
        | nil => simp at hb2
        | cons a b => exact ⟨a, b, rfl⟩
      obtain ⟨c3, d3', rfl⟩ : ∃ c3 d3', d3 = c3 :: d3' := by
        cases d3 with
        | nil => simp at hb3
        | cons a b => exact ⟨a, b, rfl⟩
      have hc2d : isAsciiDigit c2 = true := hb2.2.2 c2 (by simp)
      have hc3d : isAsciiDigit c3 = true := hb3.2.2 c3 (by simp)
      unfold matchRgbColor
      rw [show pLit "rgb(".data ("rgb(".data ++ d1 ++ [','] ++ w1 ++ (c2 :: d2') ++ [','] ++ w2 ++ (c3 :: d3') ++ [')'] ++ rest) =
          some (d1 ++ [','] ++ w1 ++ (c2 :: d2') ++ [','] ++ w2 ++ (c3 :: d3') ++ [')'] ++ rest) from
        (pLit_eq_some _ _ _).mpr (by simp [List.append_assoc])]
      simp only [Option.some_bind]
      rw [show d1 ++ [','] ++ w1 ++ (c2 :: d2') ++ [','] ++ w2 ++ (c3 :: d3') ++ [')'] ++ rest =
          d1 ++ ',' :: (w1 ++ (c2 :: d2') ++ [','] ++ w2 ++ (c3 :: d3') ++ [')'] ++ rest) from by
        simp [List.append_assoc]]
      rw [pDigits13_build d1 ',' _ hb1.1 hb1.2.1 hb1.2.2 (by decide)]
      simp only [Option.some_bind]
      rw [show pChar ',' (',' :: (w1 ++ (c2 :: d2') ++ [','] ++ w2 ++ (c3 :: d3') ++ [')'] ++ rest)) =
          some (w1 ++ (c2 :: d2') ++ [','] ++ w2 ++ (c3 :: d3') ++ [')'] ++ rest) from
        (pChar_eq_some _ _ _).mpr rfl]
      simp only [Option.some_bind]
      rw [show w1 ++ (c2 :: d2') ++ [','] ++ w2 ++ (c3 :: d3') ++ [')'] ++ rest =
          w1 ++ c2 :: (d2' ++ [','] ++ w2 ++ (c3 :: d3') ++ [')'] ++ rest) from by
        simp [List.append_assoc]]
      rw [(takeWhile_append_stop isPyWs w1 hw1 c2 (digit_not_ws c2 hc2d) _).2]
      rw [show c2 :: (d2' ++ [','] ++ w2 ++ (c3 :: d3') ++ [')'] ++ rest) =
          (c2 :: d2') ++ ',' :: (w2 ++ (c3 :: d3') ++ [')'] ++ rest) from by
        simp [List.append_assoc]]
      rw [pDigits13_build _ ',' _ hb2.1 hb2.2.1 hb2.2.2 (by decide)]
      simp only [Option.some_bind]
      rw [show pChar ',' (',' :: (w2 ++ (c3 :: d3') ++ [')'] ++ rest)) =
          some (w2 ++ (c3 :: d3') ++ [')'] ++ rest) from (pChar_eq_some _ _ _).mpr rfl]
      simp only [Option.some_bind]
      rw [show w2 ++ (c3 :: d3') ++ [')'] ++ rest = w2 ++ c3 :: (d3' ++ [')'] ++ rest) from by
        simp [List.append_assoc]]
      rw [(takeWhile_append_stop isPyWs w2 hw2 c3 (digit_not_ws c3 hc3d) _).2]
      rw [show c3 :: (d3' ++ [')'] ++ rest) = (c3 :: d3') ++ ')' :: rest from by
        simp [List.append_assoc]]
      rw [pDigits13_build _ ')' _ hb3.1 hb3.2.1 hb3.2.2 (by decide)]
      simp only [Option.some_bind]
      rw [show pChar ')' (')' :: rest) = some rest from (pChar_eq_some _ _ _).mpr rfl]
      simp [hrest]
    rcases h with ⟨d1, w1, d2, w2, d3, he, hb1, hb2, hb3, hw1, hw2⟩ |
      ⟨t, ht, d1, w1, d2, w2, d3, he, hb1, hb2, hb3, hw1, hw2⟩
    · rw [he, show "rgb(".data ++ d1 ++ [','] ++ w1 ++ d2 ++ [','] ++ w2 ++ d3 ++ [')'] =
          "rgb(".data ++ d1 ++ [','] ++ w1 ++ d2 ++ [','] ++ w2 ++ d3 ++ [')'] ++ [] from by simp]
      exact build d1 w1 d2 w2 d3 [] hb1 hb2 hb3 hw1 hw2 (by decide)
    · rw [ht, he]
      rw [show "rgb(".data ++ d1 ++ [','] ++ w1 ++ d2 ++ [','] ++ w2 ++ d3 ++ [')'] ++ ['\n'] =
          "rgb(".data ++ d1 ++ [','] ++ w1 ++ d2 ++ [','] ++ w2 ++ d3 ++ [')'] ++ ['\n'] from rfl]
      exact build d1 w1 d2 w2 d3 ['\n'] hb1 hb2 hb3 hw1 hw2 (by decide)


theorem matchHex_iff (l : List Char) :
    matchHexColor l = true ↔
      (specHexColor l ∨ ∃ t, l = t ++ ['\n'] ∧ specHexColor t) := by
  constructor
  · intro h
    unfold matchHexColor at h
    cases l with
    | nil => simp [pChar] at h
    | cons c rest =>
      simp only [pChar] at h
      by_cases hc : c = '#'
      · subst hc
        rw [if_pos rfl] at h
        simp only [Bool.and_eq_true, decide_eq_true_eq] at h
        obtain ⟨⟨hlen, hall⟩, hdol⟩ := h
        have hsplit : rest = rest.take 6 ++ rest.drop 6 := (List.take_append_drop 6 rest).symm
        have hmem : ∀ c ∈ rest.take 6, isHexChar c = true := List.all_eq_true.mp hall
        rcases (show rest.drop 6 = [] ∨ rest.drop 6 = ['\n'] by
          simpa [pyDollar, Bool.or_eq_true, decide_eq_true_eq] using hdol) with hd | hd
        · left
          refine ⟨rest.take 6, ?_, hlen, hmem⟩
          rw [hsplit, hd]
          simp
        · right
          refine ⟨'#' :: rest.take 6, ?_, rest.take 6, rfl, hlen, hmem⟩
          rw [hsplit, hd]
          simp
          exact (List.take_left' hlen).symm
      · rw [if_neg hc] at h
        simp at h
  · intro h
    rcases h with ⟨hex, he, hlen, hmem⟩ | ⟨t, ht, hex, he, hlen, hmem⟩
    · subst he
      have h1 : List.take 6 hex = hex := List.take_of_length_le (by omega)
      have h2 : List.drop 6 hex = [] := List.drop_eq_nil_of_le (by omega)
      simp [matchHexColor, pChar, h1, h2, pyDollar, hlen, List.all_eq_true.mpr hmem]
    · subst he
      subst ht
      have h1 : List.take 6 (hex ++ ['\n']) = hex := List.take_left' hlen
      have h2 : List.drop 6 (hex ++ ['\n']) = ['\n'] := List.drop_left' hlen
      simp [matchHexColor, pChar, h1, h2, pyDollar, hlen, List.all_eq_true.mpr hmem]


theorem specColorNl_iff_matchers (s : String) :
    (matchHexColor s.data = true ∨ matchRgbColor s.data = true) ↔ specColorNl s := by
  rw [matchHex_iff, matchRgb_iff]
  unfold specColorNl specColor
  constructor
  · rintro ((hh | ⟨t, ht, hs⟩) | (hr | ⟨t, ht, hs⟩))
    · exact Or.inl (Or.inl hh)
    · exact Or.inr ⟨t, ht, Or.inl hs⟩
    · exact Or.inl (Or.inr hr)
    · exact Or.inr ⟨t, ht, Or.inr hs⟩
  · rintro ((hh | hr) | ⟨t, ht, hs | hs⟩)
    · exact Or.inl (Or.inl hh)
    · exact Or.inr (Or.inl hr)
    · exact Or.inl (Or.inr ⟨t, ht, hs⟩)
    · exact Or.inr (Or.inr ⟨t, ht, hs⟩)

theorem pyFloat_digits (l : List Char) (h : l.all isAsciiDigit = true) (hne : l ≠ []) :
    pyFloat? l = some (digitsToNat l : ℚ) := by
  have hdot : ∀ c ∈ l, (fun c => decide (c ≠ '.')) c = true := by
    intro c hc
    have hd := List.all_eq_true.mp h c hc
    simp only [decide_eq_true_eq]
    intro e
    subst e
    simp [isAsciiDigit] at hd
  have hany : l.any isAsciiDigit = true := by
    cases l with
    | nil => exact absurd rfl hne
    | cons x xs =>
      have := List.all_eq_true.mp h x (by simp)
      simp [List.any_cons, this]
  have hfil : (l.filter (fun c => decide (c = '.'))).length ≤ 1 := by
    have : l.filter (fun c => decide (c = '.')) = [] := by
      rw [List.filter_eq_nil_iff]
      intro a ha
      have := hdot a ha
      simp only [decide_eq_true_eq] at this
      simpa using this
    simp [this]
  unfold pyFloat?
  rw [if_pos]
  · rw [List.takeWhile_eq_self_iff.mpr hdot, List.dropWhile_eq_nil_iff.mpr hdot]
    simp [digitsToNat]
  · simp only [Bool.and_eq_true, decide_eq_true_eq]
    exact ⟨hany, hfil⟩

/-! ## Claim theorems -/

/-- C10 counterexample: `get_safe_color` returns `"#aabbcc\n"` unchanged
although it does not match the claim's six-hex-digit pattern `#RRGGBB`
(Python's `$` also matches just before a trailing newline), so the
"every other case yields 'inherit'" half of the claim is false. -/
theorem get_safe_color_counterexample :
    get_safe_color "#aabbcc\n" = "#aabbcc\n" ∧ ("#aabbcc\n" : String) ≠ "inherit" ∧
    ¬ specColor "#aabbcc\n" := by
  refine ⟨by decide, by decide, ?_⟩
  rintro (⟨hex, he, hlen, hmem⟩ | ⟨d1, w1, d2, w2, d3, he, hb1, hb2⟩)
  · have h7 : hex.length = 7 := by
      have := congrArg List.length he
      simpa using this
    omega
  · have : ("#aabbcc\n".data).head? = some 'r' := by
      rw [he]
      rfl
    simp at this

/-- C10 (amended): `get_safe_color` never raises and returns its input
unchanged exactly when the input matches `#RRGGBB` or
`rgb(d{1,3},\s*d{1,3},\s*d{1,3})`, in either case optionally followed
by a single trailing newline; every other input (the empty string
included) yields the literal `'inherit'`. -/
theorem get_safe_color_amended_spec (s : String) :
    (specColorNl s → get_safe_color s = s) ∧
    (¬ specColorNl s → get_safe_color s = "inherit") := by
  by_cases h1 : matchHexColor s.data = true
  · have hsp : specColorNl s := (specColorNl_iff_matchers s).mp (Or.inl h1)
    by_cases he : s = ""
    · subst he
      exact absurd h1 (by decide)
    · exact ⟨fun _ => by simp [get_safe_color, he, h1], fun hn => absurd hsp hn⟩
  · by_cases h2 : matchRgbColor s.data = true
    · have hsp : specColorNl s := (specColorNl_iff_matchers s).mp (Or.inr h2)
      by_cases he : s = ""
      · subst he
        exact absurd h2 (by decide)
      · exact ⟨fun _ => by simp [get_safe_color, he, h1, h2], fun hn => absurd hsp hn⟩
    · have hns : ¬ specColorNl s := by
        intro hsp
        rcases (specColorNl_iff_matchers s).mpr hsp with h | h
        exacts [h1 h, h2 h]
      refine ⟨fun hsp => absurd hsp hns, fun _ => ?_⟩
      by_cases he : s = "" <;> simp [get_safe_color, he, h1, h2]

/-- C10 witness: the amended theorem applied at the concrete colour
`#12abCD`. -/
theorem get_safe_color_amended_spec_witness :
    specColorNl "#12abCD" ∧ get_safe_color "#12abCD" = "#12abCD" :=
  ⟨Or.inl (Or.inl ⟨['1', '2', 'a', 'b', 'C', 'D'], rfl, rfl, by decide⟩),
   (get_safe_color_amended_spec "#12abCD").1
     (Or.inl (Or.inl ⟨['1', '2', 'a', 'b', 'C', 'D'], rfl, rfl, by decide⟩))⟩

/-- C1 counterexample: `handle_text_marks` is not permutation-invariant
— listing the bold mark before the colour mark nests `<strong>`
outermost, so the fixed colour-first priority order the claim states
does not exist in the code. -/
theorem handle_text_marks_order_counterexample :
    handleTextMarks [⟨"strong", []⟩, ⟨"font_color", [("color", "#ff0000")]⟩] "text" ≠
      handleTextMarks [⟨"font_color", [("color", "#ff0000")]⟩, ⟨"strong", []⟩] "text" ∧
    handleTextMarks [⟨"strong", []⟩, ⟨"font_color", [("color", "#ff0000")]⟩] "text" =
      "<strong><span style=\"color: #ff0000;\">text</span></strong>" := by
  constructor <;> decide

/-- C1 (amended): marks wrap the text in **encounter order**, first
mark outermost; for a text node whose marks list the colour mark first
and the bold mark second, the colour span is outermost with `<strong>`
inside it, for every valid colour and non-empty text. -/
theorem handle_text_marks_color_first_nesting (c t : String)
    (hc : get_safe_color c = c) (ht : t ≠ "") :
    handleTextMarks [⟨"font_color", [("color", c)]⟩, ⟨"strong", []⟩] t =
      "<span style=\"color: " ++ c ++ ";\"><strong>" ++ String.mk (escapeHtml t.data) ++
        "</strong></span>" := by
  have h : ("<span style=\"color: " ++ c ++ ";\">") ++ "<strong>" =
      "<span style=\"color: " ++ c ++ ";\"><strong>" := by
    apply String.ext
    simp [String.data_append]
  simp [handleTextMarks, buildMarkTags, getTagOpen, getTagClose, tagOpenKeys,
        alookup, attrD, hc, ht, pyJoin, h]
  apply String.ext
  simp [String.data_append, tagCloseConst]

/-- C1 witness: the amended theorem applied at `#ff0000` / `"text"`. -/
theorem handle_text_marks_color_first_nesting_witness :
    get_safe_color "#ff0000" = "#ff0000" ∧ ("text" : String) ≠ "" ∧
    handleTextMarks [⟨"font_color", [("color", "#ff0000")]⟩, ⟨"strong", []⟩] "text" =
      "<span style=\"color: " ++ "#ff0000" ++ ";\"><strong>" ++
        String.mk (escapeHtml "text".data) ++ "</strong></span>" :=
  ⟨by decide, by decide,
   handle_text_marks_color_first_nesting "#ff0000" "text" (by decide) (by decide)⟩

/-- C6 counterexample: a heading with `level = 7` renders as `<h7 ...>`,
not as the clamped `<h6 ...>` the claim requires. -/
theorem heading_level_counterexample :
    getTagOpen "heading" [("level", "7")] = .ok "<h7 style=\"color: inherit;\">" ∧
    ("<h7 style=\"color: inherit;\">" : String) ≠ "<h6 style=\"color: inherit;\">" :=
  ⟨rfl, by decide⟩

/-- C6 (amended): the heading level attribute is interpolated into the
`<h{level}>` template verbatim — no clamping to `[1, 6]` exists, so an
out-of-range level yields an out-of-range tag. -/
theorem heading_level_verbatim (lvl : String) :
    getTagOpen "heading" [("level", lvl)] =
      .ok ("<h" ++ lvl ++ " style=\"color: inherit;\">") := by
  have h : ("<h" ++ lvl ++ " style=\"color: " ++ "inherit" ++ ";\">") =
      ("<h" ++ lvl ++ " style=\"color: inherit;\">") := by
    apply String.ext
    simp [String.data_append]
  simp [getTagOpen, alookup, attrD, tagOpenKeys, get_safe_color, h]

/-- C9 counterexample: a text node with a link mark lacking `href`
yields the bare text — no anchor tag and no default `"#"` href. -/
theorem link_mark_missing_href_counterexample :
    handleTextMarks [⟨"link", []⟩] "x" = "x" ∧
    containsSub "<a".data (handleTextMarks [⟨"link", []⟩] "x").data = false ∧
    containsSub "#".data (handleTextMarks [⟨"link", []⟩] "x").data = false := by
  refine ⟨?_, ?_, ?_⟩ <;> decide

/-- C9 (amended): for a link mark without `href`, `get_tag_open` raises
`KeyError` (the defaults retry re-raises it), `handle_text_marks`
swallows the exception and returns just the HTML-escaped text, with no
anchor markup at all. -/
theorem link_mark_missing_href_bare_text (t : String) (ht : t ≠ "") :
    handleTextMarks [⟨"link", []⟩] t = String.mk (escapeHtml t.data) := by
  simp [handleTextMarks, buildMarkTags, getTagOpen, getTagClose, tagOpenKeys,
        alookup, attrD, ht, pyJoin]

/-- C9 witness: the amended theorem applied at the text `"x"`. -/
theorem link_mark_missing_href_bare_text_witness :
    ("x" : String) ≠ "" ∧ handleTextMarks [⟨"link", []⟩] "x" = String.mk (escapeHtml "x".data) :=
  ⟨by decide, link_mark_missing_href_bare_text "x" (by decide)⟩

/-- C8: when neither the Box download nor the local-file search yields a
path (and also when the working directory or the file name is missing),
`handle_image` returns the empty string — never a placeholder tag. -/
theorem unresolved_image_returns_empty (download : String → String → Option String)
    (findLocal : String → Option String)
    (hd : ∀ b f, download b f = none) (hf : ∀ f, findLocal f = none)
    (attrs : List (String × String)) (hasWorkdir : Bool) (token : Option String) :
    handleImage download findLocal attrs hasWorkdir token = "" := by
  unfold handleImage handleImageE
  cases hasWorkdir with
  | false => simp
  | true =>
    simp only [Bool.not_true]
    by_cases hb : (strTruthy token && strTruthy (alookup attrs "boxFileId")) = true
    · simp [hb, hd]
      cases alookup attrs "fileName" <;> simp [hd]
    · simp [hb, hf]
      cases h : alookup attrs "fileName" with
      | none => simp
      | some fn =>
        by_cases hfn : fn = "" <;> simp [hfn, hf]

/-- C8 witness: the theorem applied to always-failing oracles at a
concrete image node. -/
theorem unresolved_image_returns_empty_witness :
    (∀ b f, (fun (_ _ : String) => (none : Option String)) b f = none) ∧
    (∀ f, (fun (_ : String) => (none : Option String)) f = none) ∧
    handleImage (fun _ _ => none) (fun _ => none) [("fileName", "pic.png")] true
      (some "tok") = "" :=
  ⟨fun _ _ => rfl, fun _ => rfl,
   unresolved_image_returns_empty (fun _ _ => none) (fun _ => none)
     (fun _ _ => rfl) (fun _ => rfl) [("fileName", "pic.png")] true (some "tok")⟩


/-- C2: on `</table>`, an empty buffer (or one of empty rows) is
discarded silently with no other change than the buffer reset;
otherwise a `TableGrid` table with `len(buffer)` rows and
`max(len(row))` columns is appended, each buffered `(text, is_header)`
pair lands in its cell (bold exactly on the header-flagged cells), and
every row is padded to the column count with default empty, non-bold
cells. -/
theorem process_table_close_spec (st : PState) (hskip : st.skip = false) :
    ((st.tableContent = [] ∨ ((st.tableContent.map List.length).max?).getD 0 = 0) →
      handleEndtag st "table" = { st with tableContent := [] }) ∧
    (st.tableContent ≠ [] → ((st.tableContent.map List.length).max?).getD 0 ≠ 0 →
      (handleEndtag st "table" =
        { st with
          doc := st.doc ++ [.table
            ⟨st.tableContent.length, ((st.tableContent.map List.length).max?).getD 0,
             "TableGrid",
             st.tableContent.map (fun row =>
               row ++ List.replicate ((((st.tableContent.map List.length).max?).getD 0) - row.length) ("", false))⟩],
          tableContent := [] }) ∧
      (∀ (i j : Nat) (row : List (String × Bool)) (cell : String × Bool),
        st.tableContent[i]? = some row → row[j]? = some cell →
        ((st.tableContent.map (fun row =>
            row ++ List.replicate ((((st.tableContent.map List.length).max?).getD 0) - row.length) ("", false)))[i]?.getD [])[j]? = some cell) ∧
      (∀ row, row ∈ st.tableContent →
        (row ++ List.replicate ((((st.tableContent.map List.length).max?).getD 0) - row.length) ("", false)).length =
          ((st.tableContent.map List.length).max?).getD 0)) := by
  constructor
  · intro h
    unfold handleEndtag processTable
    rcases h with h | h
    · simp [hskip, h]
    · by_cases h0 : st.tableContent = []
      · simp [hskip, h0]
      · simp [hskip, h0, h]
  · intro hne h0
    refine ⟨?_, ?_, ?_⟩
    · unfold handleEndtag processTable
      simp [hskip, hne, h0]
    · intro i j row cell hi hj
      have hjlt : j < row.length := by
        rcases List.getElem?_eq_some_iff.mp hj with ⟨hlt, _⟩
        exact hlt
      simp only [List.getElem?_map, hi, Option.map_some', Option.getD_some,
        List.getElem?_append, hjlt, if_pos]
      exact hj
    · intro row hrow
      have hle : row.length ≤ ((st.tableContent.map List.length).max?).getD 0 :=
        List.le_max?_getD_of_mem (List.mem_map_of_mem _ hrow)
      simp [List.length_append, List.length_replicate]
      omega

/-- C2 witness: the theorem applied to a concrete two-row buffer (one
header cell, one short row that gets padded). -/
theorem process_table_close_spec_witness :
    handleEndtag { tableContent := [[("a", true), ("b", false)], [("c", false)]] } "table" =
      { doc := [.table ⟨2, 2, "TableGrid",
          [[("a", true), ("b", false)], [("c", false), ("", false)]]⟩],
        tableContent := [] } := by
  have h := (process_table_close_spec
    ({ tableContent := [[("a", true), ("b", false)], [("c", false)]] } : PState) rfl).2
    (by decide) (by decide)
  rw [h.1]
  decide

/-- C4 counterexample: an `<a href>` tag whose link text is the
non-empty string `" "` produces no run at all — the data handler's
`data.strip()` guard drops it, so the claim's "never dropped" fails for
whitespace-only link text. -/
theorem anchor_whitespace_text_counterexample :
    (" " : String) ≠ "" ∧
    (runEvents [.start "a" [("href", "http://x")], .data " ", .close "a"] {}).doc =
      [.para {}] := by
  constructor <;> decide

/-- C4 (amended): for an `<a href=...>` tag whose link text has at
least one non-whitespace character, the reconstructor produces exactly
one plain, unstyled run with that text (the hyperlink construction call
always raises `TypeError` — one positional argument for a two-parameter
method — and is swallowed, so the text arrives via the data handler);
whitespace-only link text yields no run. -/
theorem anchor_text_plain_run (st : PState) (href t : String)
    (hskip : st.skip = false) (hpara : st.para = none) (hrun : st.run = none)
    (ht : pyStrip t.data ≠ []) :
    runEvents [.start "a" [("href", href)], .data t, .close "a"] st =
      { st with doc := st.doc ++ [.para { runs := [{ text := t }] }],
                para := some st.doc.length,
                run := some (st.doc.length, 0) } := by
  unfold runEvents
  simp only [List.foldl, stepEvent]
  rw [show handleStarttag st "a" [("href", href)] =
      { st with doc := st.doc ++ [.para {}], para := some st.doc.length } from ?_]
  · rw [show handleData { st with doc := st.doc ++ [.para {}], para := some st.doc.length } t =
        { st with doc := st.doc ++ [.para { runs := [{ text := t }] }],
                  para := some st.doc.length,
                  run := some (st.doc.length, 0) } from ?_]
    · unfold handleEndtag
      simp [hskip]
    · unfold handleData
      simp [hskip, ht, hrun, addRun, modifyPara, paraRunCount, listModify_concat, getp_concat]
  · unfold handleStarttag
    simp [hskip, hpara, pyDictGet, newParagraph]

/-- C4 witness: the amended theorem applied at link text `"click"` from
the initial state. -/
theorem anchor_text_plain_run_witness :
    runEvents [.start "a" [("href", "http://x")], .data "click", .close "a"] {} =
      { doc := [.para { runs := [{ text := "click" }] }],
        para := some 0, run := some (0, 0) } := by
  have h := anchor_text_plain_run {} "http://x" "click" rfl rfl rfl (by decide)
  rw [h]
  decide

/-- C5: a `<p>` whose parsed style has a `margin-left` value with a
numeric prefix sets the paragraph's left indent to the value divided by
96 when the value mentions `px` and by 72 when it mentions `pt` (px
checked first), capped at `MAX_INDENT = 5.5` inches; in particular
`margin-left: 96px` yields exactly 1.0 inch. -/
theorem margin_left_indent_spec (st : PState) (s m : String) (nr : List Char) (v : ℚ)
    (hskip : st.skip = false)
    (hm : pyDictGet (parseStyleString s) "margin-left" = some m)
    (hnr : firstNumRun m.data = some nr)
    (hv : pyFloat? nr = some v) :
    (∃ p : DPara, handleStarttag st "p" [("style", s)] = newParagraph st p ∧
      (pyIn "px" m = true → p.leftIndent = some (min (v / 96) MAX_INDENT)) ∧
      (pyIn "px" m = false → pyIn "pt" m = true →
        p.leftIndent = some (min (v / 72) MAX_INDENT))) ∧
    (runEvents [.start "p" [("style", "margin-left: 96px")]] {}).doc =
      [.para { leftIndent := some 1 }] := by
  constructor
  · refine ⟨applyParagraphStyle {} (parseStyleString s), ?_, ?_, ?_⟩
    · unfold handleStarttag
      simp [hskip, pyDictGet]
    · intro hpx
      unfold applyParagraphStyle
      simp [hm, hnr, hv, hpx]
    · intro hpx hpt
      unfold applyParagraphStyle
      simp [hm, hnr, hv, hpx, hpt]
  · have e1 : parseStyleString "margin-left: 96px" = [("margin-left", "96px")] := by decide
    have e2 : firstNumRun "96px".data = some ['9', '6'] := by decide
    have e3 : pyFloat? ['9', '6'] = some 96 := by
      rw [pyFloat_digits ['9', '6'] (by decide) (by decide)]
      norm_num
      decide
    unfold runEvents
    simp only [List.foldl, stepEvent]
    unfold handleStarttag
    simp [pyDictGet, e1, applyParagraphStyle, e2, e3, pyIn, containsSub,
          MAX_INDENT, newParagraph]
    norm_num

/-- C5 witness: the theorem applied at the style `margin-left: 96px`
from the initial state. -/
theorem margin_left_indent_spec_witness :
    pyDictGet (parseStyleString "margin-left: 96px") "margin-left" = some "96px" ∧
    (runEvents [.start "p" [("style", "margin-left: 96px")]] {}).doc =
      [.para { leftIndent := some 1 }] := by
  have hv : pyFloat? ['9', '6'] = some 96 := by
    rw [pyFloat_digits ['9', '6'] (by decide) (by decide)]
    norm_num
    decide
  exact ⟨by decide,
    (margin_left_indent_spec {} "margin-left: 96px" "96px" ['9', '6'] 96 rfl
      (by decide) (by decide) hv).2⟩

/-- C7: for `<ul><li>A<ul><li>B</li></ul></li></ul>` both items become
List-Bullet paragraphs, A at depth 1 with indent `1 * LIST_INDENT` and
B at depth 2 with indent `2 * LIST_INDENT`, B's indent strictly greater
than A's and below the `MAX_INDENT` cap. -/
theorem nested_list_indents :
    (runEvents
      [.start "ul" [], .start "li" [], .data "A", .start "ul" [], .start "li" [],
       .data "B", .close "li", .close "ul", .close "li", .close "ul"] {}).doc =
      [.para { style := some "List Bullet", leftIndent := some (1 * LIST_INDENT),
               runs := [{ text := "A" }] },
       .para { style := some "List Bullet", leftIndent := some (2 * LIST_INDENT),
               runs := [{ text := "B" }] }] ∧
    (1 : ℚ) * LIST_INDENT < 2 * LIST_INDENT ∧ (2 : ℚ) * LIST_INDENT ≤ MAX_INDENT := by
  refine ⟨?_, by norm_num [LIST_INDENT], by norm_num [LIST_INDENT, MAX_INDENT]⟩
  simp [runEvents, stepEvent, handleStarttag, handleEndtag, handleData,
        newParagraph, addRun, modifyPara, modifyRun, paraRunCount, pyStrip,
        isPyWs, LIST_INDENT, MAX_INDENT, setFontFlag, listModify]
  norm_num [min_def]


theorem fallback_shape_aux (title content : String)
    (htitle : ∀ c ∈ title.data, c ≠ '<')
    (hstyle : startsWithStyle content = false) :
    (parseFallback title content).data =
      "<!DOCTYPE html><html><head><meta charset=\"UTF-8\"><title>".data ++
      (collapseWs title.data ++
       ("</title></head><body><p style=\"text-align: left; margin-bottom: 1em; line-height: 1.6;\">".data ++
        (collapseWs (escapeHtml content.data) ++ "</p></body></html>".data))) := by
  have hrm : rmEmptyP
      ("<!DOCTYPE html><html><head><meta charset=\"UTF-8\"><title>".data ++
       (title.data ++
        ("</title></head><body><p style=\"text-align: left; margin-bottom: 1em; line-height: 1.6;\">".data ++
         (escapeHtml content.data ++ "</p></body></html>".data)))) =
      "<!DOCTYPE html><html><head><meta charset=\"UTF-8\"><title>".data ++
      (title.data ++
       ("</title></head><body><p style=\"text-align: left; margin-bottom: 1em; line-height: 1.6;\">".data ++
        (escapeHtml content.data ++ "</p></body></html>".data))) := by
    unfold rmEmptyP
    rw [rmP_append_resolved _ (by decide) _]
    rw [rmP_append_noLt _ htitle _]
    rw [rmP_append_resolved _ (by decide) _]
    rw [rmP_append_noLt _ (esc_no_lt content.data) _]
    rw [show rmEmptyPAux 0 "</p></body></html>".data = "</p></body></html>".data from by decide]
  have hcw : collapseWs
      ("<!DOCTYPE html><html><head><meta charset=\"UTF-8\"><title>".data ++
       (title.data ++
        ("</title></head><body><p style=\"text-align: left; margin-bottom: 1em; line-height: 1.6;\">".data ++
         (escapeHtml content.data ++ "</p></body></html>".data)))) =
      "<!DOCTYPE html><html><head><meta charset=\"UTF-8\"><title>".data ++
      (collapseWs title.data ++
       ("</title></head><body><p style=\"text-align: left; margin-bottom: 1em; line-height: 1.6;\">".data ++
        (collapseWs (escapeHtml content.data) ++ "</p></body></html>".data))) := by
    unfold collapseWs
    rw [cw_append]
    rw [show collapseWsAux false "<!DOCTYPE html><html><head><meta charset=\"UTF-8\"><title>".data =
        "<!DOCTYPE html><html><head><meta charset=\"UTF-8\"><title>".data from by decide]
    rw [show wsStateAfter false "<!DOCTYPE html><html><head><meta charset=\"UTF-8\"><title>".data =
        false from by decide]
    rw [cw_append]
    congr 1
    rw [show ("</title></head><body><p style=\"text-align: left; margin-bottom: 1em; line-height: 1.6;\">".data ++
          (escapeHtml content.data ++ "</p></body></html>".data)) =
        '<' :: ("/title></head><body><p style=\"text-align: left; margin-bottom: 1em; line-height: 1.6;\">".data ++
          (escapeHtml content.data ++ "</p></body></html>".data)) from rfl]
    rw [cw_prev_irrelevant _ _ _ (by decide)]
    rw [show ('<' :: ("/title></head><body><p style=\"text-align: left; margin-bottom: 1em; line-height: 1.6;\">".data ++
          (escapeHtml content.data ++ "</p></body></html>".data))) =
        ("</title></head><body><p style=\"text-align: left; margin-bottom: 1em; line-height: 1.6;\">".data ++
          (escapeHtml content.data ++ "</p></body></html>".data)) from rfl]
    rw [cw_append]
    rw [show collapseWsAux false "</title></head><body><p style=\"text-align: left; margin-bottom: 1em; line-height: 1.6;\">".data =
        "</title></head><body><p style=\"text-align: left; margin-bottom: 1em; line-height: 1.6;\">".data from by decide]
    rw [show wsStateAfter false "</title></head><body><p style=\"text-align: left; margin-bottom: 1em; line-height: 1.6;\">".data =
        false from by decide]
    congr 1
    rw [cw_append]
    congr 1
  unfold parseFallback
  show collapseWs (rmEmptyP
      (pyJoin ((fallbackContents title content).filter (fun s => s ≠ ""))).data) = _
  rw [fallback_joined title content hstyle, hrm, hcw]

/-- C3 counterexample: an unparseable input whose stripped text starts
with `<style` is dropped entirely (empty paragraph, raw text absent
from the document), and an unparseable input containing consecutive
whitespace is not contained verbatim either, because `re.sub(r'\\s+', ' ')`
collapses every whitespace run — both refute "contains the entire raw
input string as the text of a paragraph node". -/
theorem parse_fallback_counterexample :
    containsSub "<style".data (parseFallback "doc" "<style").data = false ∧
    containsSub "a\n\nb".data (parseFallback "doc" "a\n\nb").data = false ∧
    parseFallback "doc" "<style" =
      "<!DOCTYPE html><html><head><meta charset=\"UTF-8\"><title>doc</title></head><body><p style=\"text-align: left; margin-bottom: 1em; line-height: 1.6;\"></p></body></html>" := by
  refine ⟨by decide, by decide, by decide⟩

/-- C3 (amended): for every input on the fallback (unparseable-JSON)
path, the parser raises nothing and produces the fixed document
`<!DOCTYPE html><html><head>...<body><p ...>TEXT</p></body></html>`
(doctype, html and body all present), where TEXT is the HTML-escaped
input with every whitespace run collapsed to a single space — provided
the stripped input does not start with `<style` (such inputs yield an
empty paragraph instead). -/
theorem parse_fallback_document_shape (title content : String)
    (htitle : ∀ c ∈ title.data, c ≠ '<')
    (hstyle : startsWithStyle content = false) :
    (parseFallback title content).data =
      "<!DOCTYPE html><html><head><meta charset=\"UTF-8\"><title>".data ++
      (collapseWs title.data ++
       ("</title></head><body><p style=\"text-align: left; margin-bottom: 1em; line-height: 1.6;\">".data ++
        (collapseWs (escapeHtml content.data) ++ "</p></body></html>".data))) ∧
    containsSub "<!DOCTYPE html>".data (parseFallback title content).data = true ∧
    containsSub "<html>".data (parseFallback title content).data = true ∧
    containsSub "<body>".data (parseFallback title content).data = true := by
  have heq := fallback_shape_aux title content htitle hstyle
  refine ⟨heq, ?_, ?_, ?_⟩
  · rw [heq]
    exact containsSub_append_left _ _ _ (by decide)
  · rw [heq]
    exact containsSub_append_left _ _ _ (by decide)
  · rw [heq]
    apply containsSub_append_right
    apply containsSub_append_right
    exact containsSub_append_left _ _ _ (by decide)

/-- C3 witness: the amended theorem applied at title `doc` and the
unparseable input `a b`. -/
theorem parse_fallback_document_shape_witness :
    parseFallback "doc" "a b" =
      "<!DOCTYPE html><html><head><meta charset=\"UTF-8\"><title>doc</title></head><body><p style=\"text-align: left; margin-bottom: 1em; line-height: 1.6;\">a b</p></body></html>" := by
  have h := (parse_fallback_document_shape "doc" "a b" (by decide) (by decide)).1
  apply String.ext
  rw [h]
  decide


end BoxToDocx
